import Mathlib

/-!
Verification development for the semantic-analysis layer of the Leo circuit
compiler fragment: the import resolver of
src/compiler/src/constraints/import.rs and the type-checking visitor of
src/compiler/passes/src/type_checker/check_program.rs, embedded shallowly.
Filesystem entries, the ambient environment and the results of the external
parser collaborator are modelled as explicit data; machine effects (state
mutation of the running definition store, the diagnostic handler) are modelled
by explicit state passing.  A Rust panic (an `unwrap` failure or unbounded
recursion exhausting the call stack) is modelled by a dedicated result
constructor, distinct from every typed error.
-/

namespace Leo

/-- Source-location span attached to AST nodes and diagnostics. -/
structure Span where
  line : Nat
  deriving DecidableEq, Repr

/-- A named identifier with its source span. -/
structure Identifier where
  name : String
  span : Span
  deriving DecidableEq, Repr

/-- One symbol of a symbol import: the requested name, an optional alias and
the span of the import statement (leo_types::ImportSymbol). -/
structure ImportSymbol where
  symbol : String
  alias_ : Option String
  span : Span
  deriving DecidableEq, Repr

mutual

/-- Package access specification (leo_types::PackageAccess): wildcard, one
named symbol, a nested sub-package, or an ordered list of accesses. -/
inductive PackageAccess where
  | star : Span → PackageAccess
  | symbol : ImportSymbol → PackageAccess
  | subPackage : Package → PackageAccess
  | multiple : List PackageAccess → PackageAccess

/-- A package descriptor (leo_types::Package): its name and the access
specification applied to it. -/
inductive Package where
  | mk : Identifier → PackageAccess → Package

end

/-- The name component of a package descriptor. -/
def Package.name : Package → Identifier
  | .mk n _ => n

/-- The access component of a package descriptor. -/
def Package.access : Package → PackageAccess
  | .mk _ a => a

/-- A top-level import declaration (leo_types::Import): a package plus the
span of the import statement. -/
structure Import where
  package : Package
  span : Span

/-- An imported circuit definition.  Its internal structure is irrelevant
to the resolution of imports; a tag distinguishes distinct definitions. -/
structure CircuitDef where
  tag : Nat
  deriving DecidableEq, Repr

/-- An imported function definition, likewise kept abstract. -/
structure FunctionDef where
  tag : Nat
  deriving DecidableEq, Repr

/-- Modelled from the spec: the abstract syntax tree produced by the external
parser collaborator, holding the declarations a Program is built from
(circuits by name, functions by name, and the import declarations of the
parsed file). -/
structure Ast where
  circuits : List (String × CircuitDef)
  functions : List (String × FunctionDef)
  imports : List Import

/-- A parsed program (leo_types::Program): a named unit holding circuits by
name, functions by name and the import declarations of its source file. -/
structure Program where
  name : String
  circuits : List (String × CircuitDef)
  functions : List (String × FunctionDef)
  imports : List Import

/-- Modelled from the spec: the program constructor collaborator
Program::from(ast, file_name), wrapping a parsed tree into a Program whose
name is initialized from the file name. -/
def Program.from (ast : Ast) (file_name : String) : Program :=
  ⟨file_name, ast.circuits, ast.functions, ast.imports⟩

/-- The builder Program::name(self, name), renaming the program. -/
def Program.setName (p : Program) (n : String) : Program :=
  { p with name := n }

/-- A filesystem directory entry (std::fs::DirEntry), carrying the observable
results of the blocking calls made on it: file_type() (none models an I/O
error; otherwise whether the entry is a directory), file_name() converted by
into_string() (none models a non-convertible OS string), path(), and the
result of loading and parsing the file contents via the external parser
(error models a load or parse failure). -/
structure DirEntry where
  fileType : Option Bool
  fileName : Option String
  path : List String
  parsed : Except Unit Ast

/-- The filesystem as observed through fs::read_dir: for a directory path,
none models a listing error, and each listed entry may itself be an I/O error
(the iterator yields io::Result items). -/
structure FS where
  readDir : List String → Option (List (Except Unit DirEntry))

/-- The ambient process environment: std::env::current_dir, none modelling a
failure to resolve the working directory. -/
structure Env where
  currentDir : Option (List String)

/-- The typed import errors (errors::constraints::ImportError) surfaced
by the resolver, plus the opaque parser error converted into this type. -/
inductive ImportError where
  | directoryError : Span → ImportError
  | convertOsString : Span → ImportError
  | expectedFile : String → Span → ImportError
  | unknownSymbol : ImportSymbol → String → List String → ImportError
  | unknownPackage : Identifier → ImportError
  | parseError : ImportError
  deriving DecidableEq, Repr

/-- A value installed into the running definition store: a wrapped circuit
definition, or a function definition wrapped with no pre-bound call-site
context (ConstrainedValue::Function(None, f)). -/
inductive ConstrainedValue where
  | circuitDefinition : CircuitDef → ConstrainedValue
  | function : Option Identifier → FunctionDef → ConstrainedValue
  deriving DecidableEq, Repr

/-- The importing program state: its running definition store, written only
by the import resolver. -/
structure ConstrainedProgram where
  identifiers : List (String × ConstrainedValue)
  deriving DecidableEq, Repr

/-- Modelled from the spec: installing a wrapped value into the running
definition store under a qualified key (self.store(name, value)). -/
def ConstrainedProgram.store (cp : ConstrainedProgram) (name : String)
    (value : ConstrainedValue) : ConstrainedProgram :=
  ⟨(name, value) :: cp.identifiers⟩

/-- Modelled from the spec: the fixed scope-join rule producing a qualified
name from the owning program name and a local symbol name. -/
def new_scope (outer inner : String) : String :=
  outer ++ "_" ++ inner

/-- Result of a stateful import-resolution step: a Rust panic (unwrap failure
or call-stack exhaustion), a typed error together with the state at the point
of failure (mutations already applied are not rolled back), or success with
the resulting state. -/
inductive RRes where
  | panic : RRes
  | err : ConstrainedProgram → ImportError → RRes
  | ok : ConstrainedProgram → RRes
  deriving Repr

/-- The state carried by a non-panicking result. -/
def RRes.state? : RRes → Option ConstrainedProgram
  | .panic => none
  | .err cp _ => some cp
  | .ok cp => some cp

/-- The fixed source-file suffix (SOURCE_FILE_EXTENSION). -/
def SOURCE_FILE_EXTENSION : String := ".leo"

/-- The fixed source-subdirectory segment (SOURCE_DIRECTORY_NAME). -/
def SOURCE_DIRECTORY_NAME : String := "src/"

/-- Fueled worker for trimEndMatches, working on character lists. -/
def trimEndLoop (pat : List Char) : Nat → List Char → List Char
  | 0, s => s
  | n + 1, s =>
    if pat.isSuffixOf s then trimEndLoop pat n (s.take (s.length - pat.length))
    else s

/-- Rust str::trim_end_matches: repeatedly removes every trailing occurrence
of the pattern.  The fuel s.length suffices because each removal of the
nonempty pattern .leo shortens the string. -/
def trimEndMatches (pat s : String) : String :=
  ⟨trimEndLoop pat.data s.data.length s.data⟩

/-- The Source Loader parse_import_file: checks the file type (DirectoryError
on failure), converts the file name (ConvertOsString on failure), rejects
directories (expected-file error carrying the display name), then parses the
contents and wraps them into a Program named after the file, exactly in the
order of the source. -/
def parse_import_file (entry : DirEntry) (span : Span) :
    Except ImportError Program :=
  match entry.fileType with
  | none => .error (.directoryError span)
  | some is_dir =>
    match entry.fileName with
    | none => .error (.convertOsString span)
    | some file_name =>
      if is_dir then .error (.expectedFile file_name span)
      else
        match entry.parsed with
        | .error _ => .error .parseError
        | .ok ast => .ok (Program.from ast file_name)

/-- Modelled from the spec: the definition-store merge collaborator
merge_all / resolve_definitions, installing all circuits and functions of a
program unqualified into the enclosing definition store; conflict semantics
and the handling of the merged program imports are owned by the collaborator
and elided here. -/
def resolve_definitions (cp : ConstrainedProgram) (program : Program) : RRes :=
  let cp := program.circuits.foldl
    (fun cp p => cp.store p.1 (.circuitDefinition p.2)) cp
  let cp := program.functions.foldl
    (fun cp p => cp.store p.1 (.function none p.2)) cp
  .ok cp

/-- enforce_import_star: load the file, rename the program to the importing
scope, and merge all of its definitions unqualified. -/
def enforce_import_star (cp : ConstrainedProgram) (scope : String)
    (entry : DirEntry) (span : Span) : RRes :=
  match parse_import_file entry span with
  | .error e => .err cp e
  | .ok program => resolve_definitions cp (program.setName scope)

/-- Rust collect over an iterator of io::Result entries: the first entry-level
error aborts the collection. -/
def collect_entries : List (Except Unit DirEntry) → Option (List DirEntry)
  | [] => some []
  | .error _ :: _ => none
  | .ok e :: rest => (collect_entries rest).map (e :: ·)

/-- The entry search of enforce_package: find the first entry whose file name
with every trailing .leo occurrence removed equals the package name.  The
file name is unwrapped: a non-convertible name reached before a match panics
(none); some none means no entry matched; some (some e) is the match. -/
def find_matched_source_entry (package_name : String) :
    List DirEntry → Option (Option DirEntry)
  | [] => some none
  | entry :: rest =>
    match entry.fileName with
    | none => none
    | some s =>
      if trimEndMatches SOURCE_FILE_EXTENSION s = package_name then
        some (some entry)
      else find_matched_source_entry package_name rest

mutual

/-- enforce_import_symbol: parse the entry, rename the program to
the importing scope, search circuits then functions for the requested symbol
(UnknownSymbol if neither matches, reporting the symbol, the program name and
the searched path), install the wrapped match under the join of the program
name and the alias-or-symbol local name, then resolve every import of the
loaded file transitively (the unguarded recursion point; exhausted fuel
models the unbounded recursion of the source). -/
def enforce_import_symbol (fuel : Nat) (fs : FS) (env : Env)
    (cp : ConstrainedProgram) (scope : String) (entry : DirEntry)
    (symbol : ImportSymbol) : RRes :=
  match parse_import_file entry symbol.span with
  | .error e => .err cp e
  | .ok program0 =>
    let program := program0.setName scope
    let program_name := program.name
    let matched_circuit :=
      program.circuits.find? (fun p => symbol.symbol == p.1)
    let value? : Option ConstrainedValue :=
      match matched_circuit with
      | some p => some (.circuitDefinition p.2)
      | none =>
        match program.functions.find? (fun p => symbol.symbol == p.1) with
        | some p => some (.function none p.2)
        | none => none
    match value? with
    | none => .err cp (.unknownSymbol symbol program_name entry.path)
    | some value =>
      let name := symbol.alias_.getD symbol.symbol
      let resolved_name := new_scope program_name name
      let cp := cp.store resolved_name value
      match program.imports with
      | [] => .ok cp
      | imps =>
        match fuel with
        | 0 => .panic
        | n + 1 => enforce_import_list n fs env cp program_name imps
termination_by (fuel, sizeOf symbol)

/-- The short-circuiting traversal of the nested import declarations of
an imported file (map + collect into Result). -/
def enforce_import_list (fuel : Nat) (fs : FS) (env : Env)
    (cp : ConstrainedProgram) (scope : String) (imports : List Import) :
    RRes :=
  match imports with
  | [] => .ok cp
  | imp :: rest =>
    match enforce_import fuel fs env cp scope imp with
    | .panic => .panic
    | .err cp' e => .err cp' e
    | .ok cp' => enforce_import_list fuel fs env cp' scope rest
termination_by (fuel, sizeOf imports)

/-- enforce_import: resolve the current working directory (DirectoryError on
failure) and delegate to enforce_package rooted there. -/
def enforce_import (fuel : Nat) (fs : FS) (env : Env)
    (cp : ConstrainedProgram) (scope : String) (imp : Import) : RRes :=
  match imp with
  | .mk package span =>
    match env.currentDir with
    | none => .err cp (.directoryError span)
    | some path => enforce_package fuel fs env cp scope path package
termination_by (fuel, sizeOf imp)

/-- enforce_package: append the fixed src/ segment, list the directory
(DirectoryError on a listing or entry error), search the entries for the
package name with trailing .leo occurrences trimmed (the unwrap on a
non-convertible entry name panics), then dispatch into the access
specification on the match or fail with UnknownPackage. -/
def enforce_package (fuel : Nat) (fs : FS) (env : Env)
    (cp : ConstrainedProgram) (scope : String) (path : List String)
    (package : Package) : RRes :=
  match package with
  | .mk package_name access =>
    let source_directory := path ++ [SOURCE_DIRECTORY_NAME]
    match fs.readDir source_directory with
    | none => .err cp (.directoryError package_name.span)
    | some raw =>
      match collect_entries raw with
      | none => .err cp (.directoryError package_name.span)
      | some entries =>
        match find_matched_source_entry package_name.name entries with
        | none => .panic
        | some none => .err cp (.unknownPackage package_name)
        | some (some entry) =>
          enforce_package_access fuel fs env cp scope entry access
termination_by (fuel, sizeOf package)

/-- enforce_package_access: dispatch on the access variant; Star merges the
whole file, Symbol installs one qualified symbol, SubPackage re-enters
package resolution rooted at the entry path, Multiple applies each access in
order under the same scope. -/
def enforce_package_access (fuel : Nat) (fs : FS) (env : Env)
    (cp : ConstrainedProgram) (scope : String) (entry : DirEntry)
    (access : PackageAccess) : RRes :=
  match access with
  | .star span => enforce_import_star cp scope entry span
  | .symbol symbol => enforce_import_symbol fuel fs env cp scope entry symbol
  | .subPackage package =>
    enforce_package fuel fs env cp scope entry.path package
  | .multiple accesses =>
    enforce_package_access_list fuel fs env cp scope entry accesses
termination_by (fuel, sizeOf access)

/-- The short-circuiting loop over a Multiple access list. -/
def enforce_package_access_list (fuel : Nat) (fs : FS) (env : Env)
    (cp : ConstrainedProgram) (scope : String) (entry : DirEntry)
    (accesses : List PackageAccess) : RRes :=
  match accesses with
  | [] => .ok cp
  | access :: rest =>
    match enforce_package_access fuel fs env cp scope entry access with
    | .panic => .panic
    | .err cp' e => .err cp' e
    | .ok cp' => enforce_package_access_list fuel fs env cp' scope entry rest
termination_by (fuel, sizeOf accesses)

end

/-! ## Type-checking visitor (check_program.rs) -/

/-- The sizes of the integer types of the language (leo_ast::IntegerType);
only the constructor identity matters to the embedded checks. -/
inductive IntegerType where
  | u8 | u16 | u32 | u64 | u128
  | i8 | i16 | i32 | i64 | i128
  deriving DecidableEq, Repr

/-- The declared types of the language (leo_ast::Type), named LType because
Type is reserved in Lean: the address type, booleans, field elements,
strings, sized integers, and references to declared aggregate types. -/
inductive LType where
  | address
  | boolean
  | field
  | string
  | integerType : IntegerType → LType
  | identifier : Identifier → LType
  deriving DecidableEq, Repr

/-- Modelled from the spec: flat structural type equality (Type::eq_flat),
equality of type constructors ignoring generic or placeholder parameters; on
the flat types embedded here this compares constructors and their immediate
arguments. -/
def LType.eq_flat : LType → LType → Bool
  | .address, .address => true
  | .boolean, .boolean => true
  | .field, .field => true
  | .string, .string => true
  | .integerType a, .integerType b => a == b
  | .identifier a, .identifier b => a.name == b.name
  | _, _ => false

/-- A member of an aggregate-type declaration (leo_ast::CircuitMember): a
named, typed variable. -/
inductive CircuitMember where
  | circuitVariable : Identifier → LType → CircuitMember
  deriving DecidableEq, Repr

/-- The declared name of a member (CircuitMember::name()). -/
def CircuitMember.name : CircuitMember → String
  | .circuitVariable v _ => v.name

/-- An aggregate type declaration (leo_ast::Circuit): name, ordered members,
the record flag, and a source span. -/
structure Circuit where
  name : String
  members : List CircuitMember
  is_record : Bool
  span : Span
  deriving DecidableEq, Repr

/-- The parameter modes of a function input (leo_ast::ParamMode). -/
inductive ParamMode where
  | const | priv | pub
  deriving DecidableEq, Repr

/-- The declaration kind recorded for a symbol-table entry (currently only a
function input carrying the parameter mode). -/
inductive Declaration where
  | input : ParamMode → Declaration
  deriving DecidableEq, Repr

/-- A Symbol Table entry: the declared type, the declaration span and the
declaration kind. -/
structure VariableSymbol where
  type_ : LType
  span : Span
  declaration : Declaration
  deriving DecidableEq, Repr

/-- One function parameter (leo_ast function input variable): identifier,
mode and declared type. -/
structure FunctionInputVariable where
  identifier : Identifier
  mode : ParamMode
  type_ : LType
  deriving DecidableEq, Repr

/-- The diagnostics emitted through the Diagnostic Handler
(leo_errors::TypeCheckerError, restricted to the constructors this layer
emits; the duplicateVariable diagnostic is the one produced by the Symbol
Table on a failed insert). -/
inductive TypeCheckerError where
  | duplicateRecordVariable : String → Span → TypeCheckerError
  | duplicateCircuitMember : String → Span → TypeCheckerError
  | recordVarWrongType : Identifier → LType → Span → TypeCheckerError
  | requiredRecordVariable : String → LType → Span → TypeCheckerError
  | functionHasNoReturn : String → Span → TypeCheckerError
  | duplicateVariable : String → Span → TypeCheckerError
  | externalDiag : Nat → TypeCheckerError
  deriving DecidableEq, Repr

/-- Modelled from the spec: the body of a function as seen by this layer; the
external statement visitor emits some diagnostics and reports whether a
return statement is reachable anywhere in the body (Block itself is walked by
an external collaborator). -/
structure Block where
  visitDiags : List TypeCheckerError
  containsReturn : Bool
  deriving Repr

/-- A function declaration (leo_ast::Function): name, ordered parameters,
body block and source span. -/
structure Function where
  name : String
  input : List FunctionInputVariable
  block : Block
  span : Span

/-- The type checker state: the external type-validity collaborator (as the
diagnostics it emits for a declared type), the per-function has-return flag,
the Symbol Table, the enclosing-scope marker, and the diagnostics accumulated
by the Diagnostic Handler in emission order. -/
structure TypeChecker where
  checkIdentDiags : Option LType → List TypeCheckerError
  hasReturn : Bool
  symbolTable : List (String × VariableSymbol)
  parent : Option String
  emitted : List TypeCheckerError

/-- handler.emit_err: append one diagnostic. -/
def TypeChecker.emit (tc : TypeChecker) (e : TypeCheckerError) : TypeChecker :=
  { tc with emitted := tc.emitted ++ [e] }

/-- Emit every diagnostic of a batch in order. -/
def TypeChecker.emitAll (tc : TypeChecker) (es : List TypeCheckerError) :
    TypeChecker :=
  { tc with emitted := tc.emitted ++ es }

/-- Modelled from the spec: Symbol Table insert with duplicate detection; a
present key fails with the duplicate-variable diagnostic and the table
retains the entry present at the failed insert (first wins). -/
def insert_variable (st : List (String × VariableSymbol)) (name : String)
    (sym : VariableSymbol) :
    Except TypeCheckerError (List (String × VariableSymbol)) :=
  if st.any (fun p => p.1 == name) then
    .error (.duplicateVariable name sym.span)
  else .ok (st ++ [(name, sym)])

/-- Processing of one function parameter inside visit_function: run the
external type-validity check on the declared type, then try to insert the
Symbol Table entry, emitting the duplicate-variable diagnostic on failure and
continuing. -/
def process_function_input (tc : TypeChecker) (i : FunctionInputVariable) :
    TypeChecker :=
  let tc := tc.emitAll (tc.checkIdentDiags (some i.type_))
  match insert_variable tc.symbolTable i.identifier.name
      ⟨i.type_, i.identifier.span, .input i.mode⟩ with
  | .ok st => { tc with symbolTable := st }
  | .error err => tc.emit err

/-- Modelled from the spec: the external statement visitor for the function
body, emitting its own diagnostics and setting the has-return flag when a
return statement is reachable. -/
def visit_block (tc : TypeChecker) (b : Block) : TypeChecker :=
  { tc with emitted := tc.emitted ++ b.visitDiags,
            hasReturn := tc.hasReturn || b.containsReturn }

/-- visit_function: reset the has-return flag, clear the Symbol Table, record
the enclosing scope, process each parameter in order, visit the body, and
emit the function-has-no-return diagnostic when the flag is still unset. -/
def visit_function (tc : TypeChecker) (input : Function) : TypeChecker :=
  let tc := { tc with hasReturn := false, symbolTable := [],
                      parent := some input.name }
  let tc := input.input.foldl process_function_input tc
  let tc := visit_block tc input.block
  if !tc.hasReturn then tc.emit (.functionHasNoReturn input.name input.span)
  else tc

/-- The member-name collision scan of visit_circuit: insert each name into a
set, false as soon as an insert hits a present name (HashSet::insert under
Iterator::all). -/
def all_insert (used : List String) : List String → Bool
  | [] => true
  | n :: rest => if n ∈ used then false else all_insert (n :: used) rest

/-- The names required on records with their expected types. -/
def sym.owner : String := "owner"

/-- The names required on records with their expected types. -/
def sym.balance : String := "balance"

/-- The first member carrying the requested name together with its declared
type (the find_map of check_has_field). -/
def find_member (members : List CircuitMember) (need : String) :
    Option (Identifier × LType) :=
  members.findSome? (fun m =>
    match m with
    | .circuitVariable v t => if v.name == need then some (v, t) else none)

/-- The check_has_field closure of visit_circuit: the first member named
need is accepted silently when its type matches the expected type under flat
equality, reported with record-variable-wrong-type when it does not, and the
absence of any such member is reported with required-record-variable. -/
def check_has_field (input : Circuit) (need : String) (expected_ty : LType) :
    List TypeCheckerError :=
  match find_member input.members need with
  | some vt =>
    if expected_ty.eq_flat vt.2 then []
    else [.recordVarWrongType vt.1 expected_ty input.span]
  | none => [.requiredRecordVariable need expected_ty input.span]

/-- The name-collision part of visit_circuit: exactly one duplicate
diagnostic for the whole declaration when the member names are not all
distinct, its variant depending on the record flag. -/
def dup_diags (input : Circuit) : List TypeCheckerError :=
  if !all_insert [] (input.members.map CircuitMember.name) then
    [if input.is_record then .duplicateRecordVariable input.name input.span
     else .duplicateCircuitMember input.name input.span]
  else []

/-- The mandatory-field part of visit_circuit: for records only, the
owner/address check followed by the balance/u64 check. -/
def record_diags (input : Circuit) : List TypeCheckerError :=
  if input.is_record then
    check_has_field input sym.owner .address ++
    check_has_field input sym.balance (.integerType .u64)
  else []

/-- The diagnostics visit_circuit emits for one declaration: the
name-collision scan followed by the record field checks. -/
def circuit_diags (input : Circuit) : List TypeCheckerError :=
  dup_diags input ++ record_diags input

/-- visit_circuit: emit the duplicate-member diagnostic and, for records, the
mandatory-field diagnostics through the Diagnostic Handler. -/
def visit_circuit (tc : TypeChecker) (input : Circuit) : TypeChecker :=
  tc.emitAll (circuit_diags input)

/-! ## Auxiliary predicates and spec-side readings -/

/-- No-rollback property of a resolution step: every store entry present
before the step is still present in the state carried by any non-panicking
result (success or typed error). -/
def storePreserves (cp : ConstrainedProgram) (r : RRes) : Prop :=
  ∀ cp', r.state? = some cp' → ∀ kv, kv ∈ cp.identifiers → kv ∈ cp'.identifiers

/-- Reading of the spec wording for the entry search of enforce_package: the
file name with the fixed source-file suffix .leo stripped (once, when
present).  Kept separate from the trimEndMatches behaviour of the source to
compare the two. -/
def spec_stripped_file_name (s : String) : String :=
  if SOURCE_FILE_EXTENSION.data.isSuffixOf s.data then
    ⟨s.data.take (s.data.length - SOURCE_FILE_EXTENSION.data.length)⟩
  else s

/-- Recognizer for the duplicate-variable diagnostic of the Symbol Table. -/
def isDuplicateVariableDiag : TypeCheckerError → Bool
  | .duplicateVariable _ _ => true
  | _ => false

/-- Recognizer for the duplicate-variable diagnostic naming one variable. -/
def isDuplicateVariableDiagFor (n : String) : TypeCheckerError → Bool
  | .duplicateVariable m _ => m == n
  | _ => false

/-- Recognizer for the whole-declaration duplicate diagnostics of
visit_circuit (record and non-record variants). -/
def isDuplicateMemberDiag : TypeCheckerError → Bool
  | .duplicateRecordVariable _ _ => true
  | .duplicateCircuitMember _ _ => true
  | _ => false

/-! ## Concrete instances used by witnesses and counterexamples -/

/-- A fixed source span. -/
def sp : Span := ⟨0⟩

/-- A circuit definition named bar inside the imported file. -/
def barCircuit : CircuitDef := ⟨1⟩

/-- The parse result of a file defining one circuit bar and nothing else. -/
def astFooBar : Ast := ⟨[("bar", barCircuit)], [], []⟩

/-- The directory entry src/foo.leo, a plain file with a convertible name
whose contents parse to astFooBar. -/
def entryFoo : DirEntry :=
  ⟨some false, some "foo.leo", ["cwd", "src/", "foo.leo"], .ok astFooBar⟩

/-- A filesystem on which every directory listing fails (irrelevant to steps
that never list a directory). -/
def fs0 : FS := ⟨fun _ => none⟩

/-- An environment whose working directory resolves to cwd. -/
def env0 : Env := ⟨some ["cwd"]⟩

/-- An empty running definition store. -/
def cp0 : ConstrainedProgram := ⟨[]⟩

/-- The import symbol bar aliased to baz (import foo.bar as baz). -/
def symBarBaz : ImportSymbol := ⟨"bar", some "baz", sp⟩

/-- The import symbol bar with no alias (import foo.bar). -/
def symBar : ImportSymbol := ⟨"bar", none, sp⟩

/-- An import symbol matching neither a circuit nor a function of foo. -/
def symMissing : ImportSymbol := ⟨"qux", none, sp⟩

/-- A directory entry whose file name is not convertible to a portable text
representation (file_name().into_string() fails). -/
def entryNoName : DirEntry := ⟨some false, none, ["cwd", "src/", "x"], .error ()⟩

/-- A filesystem whose cwd/src directory lists exactly the non-convertible
entry. -/
def fsBadName : FS :=
  ⟨fun p => if p = ["cwd", SOURCE_DIRECTORY_NAME] then some [.ok entryNoName]
            else none⟩

/-- The package descriptor for import foo.qux. -/
def pkgFooQux : Package := .mk ⟨"foo", sp⟩ (.symbol symMissing)

/-- The entry src/foo.leo.leo: a file whose name strips to foo only under
repeated suffix trimming. -/
def entryFooLeoLeo : DirEntry :=
  ⟨some false, some "foo.leo.leo", ["cwd", "src/", "foo.leo.leo"], .ok ⟨[], [], []⟩⟩

/-- A filesystem whose cwd/src directory lists exactly src/foo.leo.leo. -/
def fsFooLeoLeo : FS :=
  ⟨fun p => if p = ["cwd", SOURCE_DIRECTORY_NAME] then some [.ok entryFooLeoLeo]
            else none⟩

/-- The package descriptor for import foo.bar. -/
def pkgFooBar : Package := .mk ⟨"foo", sp⟩ (.symbol symBar)

/-- A directory entry that is a directory and whose name is not convertible. -/
def entryDirNoName : DirEntry := ⟨some true, none, ["cwd", "src/", "d"], .error ()⟩

/-- A directory entry whose file type cannot be determined. -/
def entryNoType : DirEntry := ⟨none, some "y.leo", ["cwd", "src/", "y.leo"], .error ()⟩

/-- A directory entry that is a directory with a convertible name. -/
def entryDir : DirEntry := ⟨some true, some "d.leo", ["cwd", "src/", "d.leo"], .error ()⟩

/-- The parse result of a file defining one circuit a and nothing else. -/
def astA : Ast := ⟨[("a", ⟨2⟩)], [], []⟩

/-- The directory entry src/foo.leo for the Multiple-access scenario, whose
file defines only the circuit a. -/
def entryA : DirEntry := ⟨some false, some "foo.leo", ["cwd", "src/", "foo.leo"], .ok astA⟩

/-- The import symbol a with no alias. -/
def symA : ImportSymbol := ⟨"a", none, sp⟩

/-- The import symbol b with no alias, matching nothing in astA. -/
def symB : ImportSymbol := ⟨"b", none, sp⟩

/-- A type checker with an external type-validity collaborator that emits
nothing, before any traversal. -/
def tc0 : TypeChecker := ⟨fun _ => [], false, [], none, []⟩

/-- A function parameter named x of address type. -/
def paramX : FunctionInputVariable := ⟨⟨"x", sp⟩, .priv, .address⟩

/-- A function whose parameter list repeats the name x across three
parameters, with a body that contains a return statement. -/
def fXXX : Function := ⟨"f", [paramX, paramX, paramX], ⟨[], true⟩, sp⟩

/-- Shorthand for a named, typed circuit member. -/
def cv (n : String) (t : LType) : CircuitMember := .circuitVariable ⟨n, sp⟩ t

/-- A record missing the owner member. -/
def recMissingOwner : Circuit :=
  ⟨"R1", [cv "balance" (.integerType .u64)], true, sp⟩

/-- A record whose owner member is typed as a string. -/
def recWrongOwner : Circuit :=
  ⟨"R2", [cv "owner" .string, cv "balance" (.integerType .u64)], true, sp⟩

/-- A record with correctly typed owner and balance members. -/
def recGood : Circuit :=
  ⟨"R3", [cv "owner" .address, cv "balance" (.integerType .u64)], true, sp⟩

/-- A non-record aggregate type with two members sharing a name. -/
def circDup : Circuit := ⟨"C1", [cv "n" .address, cv "n" .boolean], false, sp⟩

/-- A record with two members sharing a name. -/
def recDup : Circuit :=
  ⟨"R4", [cv "owner" .address, cv "owner" .address,
          cv "balance" (.integerType .u64)], true, sp⟩

/-- A record with two owner members: the first one wrongly typed as a string,
the second one correctly typed as an address. -/
def recDupOwner : Circuit :=
  ⟨"R5", [cv "owner" .string, cv "owner" .address,
          cv "balance" (.integerType .u64)], true, sp⟩

end Leo

namespace Leo

/-! ## Theorems -/

theorem storePreserves_panic (cp : ConstrainedProgram) :
    storePreserves cp .panic := by
  intro cp' h
  simp [RRes.state?] at h

theorem storePreserves_err (cp : ConstrainedProgram) (e : ImportError) :
    storePreserves cp (.err cp e) := by
  intro cp' h kv hkv
  simp [RRes.state?] at h
  subst h
  exact hkv

theorem storePreserves_ok (cp : ConstrainedProgram) :
    storePreserves cp (.ok cp) := by
  intro cp' h kv hkv
  simp [RRes.state?] at h
  subst h
  exact hkv

theorem store_subset (cp : ConstrainedProgram) (k : String)
    (v : ConstrainedValue) (kv : String × ConstrainedValue)
    (h : kv ∈ cp.identifiers) : kv ∈ (cp.store k v).identifiers := by
  simp [ConstrainedProgram.store]
  exact Or.inr h

theorem storePreserves_of_subset (cp₀ cp₁ : ConstrainedProgram) (r : RRes)
    (hsub : ∀ kv, kv ∈ cp₀.identifiers → kv ∈ cp₁.identifiers)
    (h : storePreserves cp₁ r) : storePreserves cp₀ r := by
  intro cp' hr kv hkv
  exact h cp' hr kv (hsub kv hkv)

theorem foldl_store_subset {α : Type}
    (g : ConstrainedProgram → α → ConstrainedProgram)
    (hg : ∀ cp a kv, kv ∈ cp.identifiers → kv ∈ (g cp a).identifiers)
    (l : List α) (cp : ConstrainedProgram) (kv : String × ConstrainedValue)
    (h : kv ∈ cp.identifiers) : kv ∈ (l.foldl g cp).identifiers := by
  induction l generalizing cp with
  | nil => exact h
  | cons a rest ih => exact ih (g cp a) (hg cp a kv h)

theorem resolve_definitions_preserves (cp : ConstrainedProgram)
    (program : Program) : storePreserves cp (resolve_definitions cp program) := by
  intro cp' h kv hkv
  unfold resolve_definitions at h
  simp [RRes.state?] at h
  subst h
  apply foldl_store_subset _ (fun cp a kv h => store_subset cp _ _ kv h)
  apply foldl_store_subset _ (fun cp a kv h => store_subset cp _ _ kv h)
  exact hkv

theorem enforce_import_star_preserves (cp : ConstrainedProgram)
    (scope : String) (entry : DirEntry) (span : Span) :
    storePreserves cp (enforce_import_star cp scope entry span) := by
  unfold enforce_import_star
  cases parse_import_file entry span with
  | error e => exact storePreserves_err cp e
  | ok program => exact resolve_definitions_preserves cp _

mutual

theorem enforce_import_symbol_preserves (fuel : Nat) (fs : FS) (env : Env)
    (cp : ConstrainedProgram) (scope : String) (entry : DirEntry)
    (symbol : ImportSymbol) :
    storePreserves cp (enforce_import_symbol fuel fs env cp scope entry symbol) := by
  unfold enforce_import_symbol
  cases parse_import_file entry symbol.span with
  | error e => exact storePreserves_err cp e
  | ok program0 =>
    simp only
    split
    · exact storePreserves_err cp _
    · split
      · exact storePreserves_of_subset cp _ _
          (fun kv h => store_subset cp _ _ kv h) (storePreserves_ok _)
      · split
        · exact storePreserves_panic cp
        · exact storePreserves_of_subset cp _ _
            (fun kv h => store_subset cp _ _ kv h)
            (enforce_import_list_preserves _ fs env _ _ _)
termination_by (fuel, sizeOf symbol)

theorem enforce_import_list_preserves (fuel : Nat) (fs : FS) (env : Env)
    (cp : ConstrainedProgram) (scope : String) (imports : List Import) :
    storePreserves cp (enforce_import_list fuel fs env cp scope imports) := by
  cases imports with
  | nil =>
    unfold enforce_import_list
    exact storePreserves_ok cp
  | cons imp rest =>
    have hi := enforce_import_preserves fuel fs env cp scope imp
    unfold enforce_import_list
    cases hr : enforce_import fuel fs env cp scope imp with
    | panic => exact storePreserves_panic cp
    | err cpe e =>
      intro cp' h kv hkv
      simp [RRes.state?] at h
      subst h
      exact hi cpe (by rw [hr]; rfl) kv hkv
    | ok cpo =>
      exact storePreserves_of_subset cp cpo _
        (fun kv hkv => hi cpo (by rw [hr]; rfl) kv hkv)
        (enforce_import_list_preserves fuel fs env cpo scope rest)
termination_by (fuel, sizeOf imports)

theorem enforce_import_preserves (fuel : Nat) (fs : FS) (env : Env)
    (cp : ConstrainedProgram) (scope : String) (imp : Import) :
    storePreserves cp (enforce_import fuel fs env cp scope imp) := by
  cases imp with
  | mk package span =>
    unfold enforce_import
    cases env.currentDir with
    | none => exact storePreserves_err cp _
    | some path => exact enforce_package_preserves fuel fs env cp scope path package
termination_by (fuel, sizeOf imp)

theorem enforce_package_preserves (fuel : Nat) (fs : FS) (env : Env)
    (cp : ConstrainedProgram) (scope : String) (path : List String)
    (package : Package) :
    storePreserves cp (enforce_package fuel fs env cp scope path package) := by
  cases package with
  | mk package_name access =>
    unfold enforce_package
    dsimp only
    split
    · exact storePreserves_err cp _
    · split
      · exact storePreserves_err cp _
      · split
        · exact storePreserves_panic cp
        · exact storePreserves_err cp _
        · exact enforce_package_access_preserves fuel fs env cp scope _ access
termination_by (fuel, sizeOf package)

theorem enforce_package_access_preserves (fuel : Nat) (fs : FS) (env : Env)
    (cp : ConstrainedProgram) (scope : String) (entry : DirEntry)
    (access : PackageAccess) :
    storePreserves cp (enforce_package_access fuel fs env cp scope entry access) := by
  cases access with
  | star span =>
    unfold enforce_package_access
    exact enforce_import_star_preserves cp scope entry span
  | symbol symbol =>
    unfold enforce_package_access
    exact enforce_import_symbol_preserves fuel fs env cp scope entry symbol
  | subPackage package =>
    unfold enforce_package_access
    exact enforce_package_preserves fuel fs env cp scope entry.path package
  | multiple accesses =>
    unfold enforce_package_access
    exact enforce_package_access_list_preserves fuel fs env cp scope entry accesses
termination_by (fuel, sizeOf access)

theorem enforce_package_access_list_preserves (fuel : Nat) (fs : FS)
    (env : Env) (cp : ConstrainedProgram) (scope : String) (entry : DirEntry)
    (accesses : List PackageAccess) :
    storePreserves cp
      (enforce_package_access_list fuel fs env cp scope entry accesses) := by
  cases accesses with
  | nil =>
    unfold enforce_package_access_list
    exact storePreserves_ok cp
  | cons access rest =>
    have hi := enforce_package_access_preserves fuel fs env cp scope entry access
    unfold enforce_package_access_list
    cases hr : enforce_package_access fuel fs env cp scope entry access with
    | panic => exact storePreserves_panic cp
    | err cpe e =>
      intro cp' h kv hkv
      simp [RRes.state?] at h
      subst h
      exact hi cpe (by rw [hr]; rfl) kv hkv
    | ok cpo =>
      exact storePreserves_of_subset cp cpo _
        (fun kv hkv => hi cpo (by rw [hr]; rfl) kv hkv)
        (enforce_package_access_list_preserves fuel fs env cpo scope entry rest)
termination_by (fuel, sizeOf accesses)

end

theorem parse_import_file_ok (entry : DirEntry) (span : Span) (fn : String)
    (ast : Ast) (hft : entry.fileType = some false)
    (hfn : entry.fileName = some fn) (hp : entry.parsed = .ok ast) :
    parse_import_file entry span = .ok (Program.from ast fn) := by
  unfold parse_import_file
  rw [hft, hfn, hp]
  rfl

theorem enforce_import_symbol_unknown (fuel : Nat) (fs : FS) (env : Env)
    (cp : ConstrainedProgram) (scope : String) (entry : DirEntry)
    (symbol : ImportSymbol) (fn : String) (ast : Ast)
    (hft : entry.fileType = some false) (hfn : entry.fileName = some fn)
    (hp : entry.parsed = .ok ast)
    (hc : ast.circuits.find? (fun p => symbol.symbol == p.1) = none)
    (hf : ast.functions.find? (fun p => symbol.symbol == p.1) = none) :
    enforce_import_symbol fuel fs env cp scope entry symbol
      = .err cp (.unknownSymbol symbol scope entry.path) := by
  unfold enforce_import_symbol
  rw [parse_import_file_ok entry symbol.span fn ast hft hfn hp]
  dsimp only [Program.from, Program.setName]
  rw [hc, hf]

theorem enforce_import_symbol_store_mem (fuel : Nat) (fs : FS) (env : Env)
    (cp : ConstrainedProgram) (scope : String) (entry : DirEntry)
    (symbol : ImportSymbol) (fn : String) (ast : Ast)
    (hft : entry.fileType = some false) (hfn : entry.fileName = some fn)
    (hp : entry.parsed = .ok ast) (value : ConstrainedValue)
    (hmatch :
      (∃ p, ast.circuits.find? (fun p => symbol.symbol == p.1) = some p ∧
            value = .circuitDefinition p.2) ∨
      (ast.circuits.find? (fun p => symbol.symbol == p.1) = none ∧
       ∃ q, ast.functions.find? (fun p => symbol.symbol == p.1) = some q ∧
            value = .function none q.2)) :
    ∀ cp', (enforce_import_symbol fuel fs env cp scope entry symbol).state?
        = some cp' →
      (new_scope scope (symbol.alias_.getD symbol.symbol), value)
        ∈ cp'.identifiers := by
  intro cp' h
  unfold enforce_import_symbol at h
  rw [parse_import_file_ok entry symbol.span fn ast hft hfn hp] at h
  dsimp only [Program.from, Program.setName] at h
  have hkey : (new_scope scope (symbol.alias_.getD symbol.symbol), value)
      ∈ (cp.store (new_scope scope (symbol.alias_.getD symbol.symbol)) value).identifiers := by
    simp [ConstrainedProgram.store]
  rcases hmatch with ⟨p, hcfind, hv⟩ | ⟨hcfind, q, hffind, hv⟩
  · rw [hcfind] at h
    dsimp only at h
    subst hv
    cases him : ast.imports with
    | nil =>
      rw [him] at h
      simp [RRes.state?] at h
      subst h
      exact hkey
    | cons imp rest =>
      rw [him] at h
      cases fuel with
      | zero => simp [RRes.state?] at h
      | succ n =>
        exact enforce_import_list_preserves n fs env _ scope (imp :: rest)
          cp' h _ hkey
  · rw [hcfind, hffind] at h
    dsimp only at h
    subst hv
    cases him : ast.imports with
    | nil =>
      rw [him] at h
      simp [RRes.state?] at h
      subst h
      exact hkey
    | cons imp rest =>
      rw [him] at h
      cases fuel with
      | zero => simp [RRes.state?] at h
      | succ n =>
        exact enforce_import_list_preserves n fs env _ scope (imp :: rest)
          cp' h _ hkey

/-- Claim C1 (amended): for every Symbol import resolved by
enforce_import_symbol with a matched circuit or function, the installed store
key is the qualified name obtained by joining the loaded program name — which
is the importing scope, the loaded program having been renamed to it — with
the effective local name, the alias when the ImportSymbol carries one and the
original symbol name otherwise; the entry is present in the store of every
non-panicking outcome. -/
theorem C1_qualified_store_key (fuel : Nat) (fs : FS) (env : Env)
    (cp : ConstrainedProgram) (scope : String) (entry : DirEntry)
    (symbol : ImportSymbol) (fn : String) (ast : Ast)
    (hft : entry.fileType = some false) (hfn : entry.fileName = some fn)
    (hp : entry.parsed = .ok ast) (value : ConstrainedValue)
    (hmatch :
      (∃ p, ast.circuits.find? (fun p => symbol.symbol == p.1) = some p ∧
            value = .circuitDefinition p.2) ∨
      (ast.circuits.find? (fun p => symbol.symbol == p.1) = none ∧
       ∃ q, ast.functions.find? (fun p => symbol.symbol == p.1) = some q ∧
            value = .function none q.2)) :
    ∀ cp', (enforce_import_symbol fuel fs env cp scope entry symbol).state?
        = some cp' →
      (new_scope scope (symbol.alias_.getD symbol.symbol), value)
        ∈ cp'.identifiers :=
  enforce_import_symbol_store_mem fuel fs env cp scope entry symbol fn ast
    hft hfn hp value hmatch

/-- Witness for C1_qualified_store_key: importing bar as baz from foo.leo
under the importing scope foo installs the circuit under foo_baz. -/
theorem C1_qualified_store_key_witness :
    ("foo_baz", ConstrainedValue.circuitDefinition barCircuit)
      ∈ (ConstrainedProgram.mk
          [("foo_baz", .circuitDefinition barCircuit)]).identifiers :=
  C1_qualified_store_key 1 fs0 env0 cp0 "foo" entryFoo symBarBaz "foo.leo"
    astFooBar rfl rfl rfl (.circuitDefinition barCircuit)
    (Or.inl ⟨("bar", barCircuit), by decide, rfl⟩)
    ⟨[("foo_baz", .circuitDefinition barCircuit)]⟩
    (by simp [enforce_import_symbol, parse_import_file, entryFoo, astFooBar,
          symBarBaz, Program.from, Program.setName, new_scope,
          ConstrainedProgram.store, cp0, RRes.state?])

/-- Counterexample to claim C1 as stated: importing foo.bar as baz under
the scope main installs under main_baz, the join of the scope main (to
which the loaded program is renamed) with baz, which is a key derived
from neither foo-and-baz nor foo-and-bar. -/
theorem C1_counterexample :
    enforce_import_symbol 1 fs0 env0 cp0 "main" entryFoo symBarBaz
      = .ok ⟨[("main_baz", .circuitDefinition barCircuit)]⟩ ∧
    "main_baz" ≠ new_scope "foo" "baz" ∧
    "main_baz" ≠ new_scope "foo" "bar" := by
  refine ⟨?_, by decide, by decide⟩
  simp [enforce_import_symbol, parse_import_file, entryFoo, astFooBar,
    symBarBaz, Program.from, Program.setName, new_scope,
    ConstrainedProgram.store, cp0]

/-- Claim C3: a Symbol import searches the loaded program circuits first (a
circuit match is installed as a circuit definition no matter what the
functions hold), falls back to the functions (a function match is installed
as a function value with no pre-bound context), and when neither contains
the requested name it fails with UnknownSymbol reporting the requested
symbol, the loaded program name and the searched file path, installing
nothing — the store is returned exactly as it was. -/
theorem C3_symbol_search_order (fuel : Nat) (fs : FS) (env : Env)
    (cp : ConstrainedProgram) (scope : String) (entry : DirEntry)
    (symbol : ImportSymbol) (fn : String) (ast : Ast)
    (hft : entry.fileType = some false) (hfn : entry.fileName = some fn)
    (hp : entry.parsed = .ok ast) :
    (ast.circuits.find? (fun p => symbol.symbol == p.1) = none →
     ast.functions.find? (fun p => symbol.symbol == p.1) = none →
     enforce_import_symbol fuel fs env cp scope entry symbol
       = .err cp (.unknownSymbol symbol scope entry.path)) ∧
    (∀ p, ast.circuits.find? (fun p => symbol.symbol == p.1) = some p →
     ∀ cp', (enforce_import_symbol fuel fs env cp scope entry symbol).state?
         = some cp' →
       (new_scope scope (symbol.alias_.getD symbol.symbol),
        ConstrainedValue.circuitDefinition p.2) ∈ cp'.identifiers) ∧
    (∀ q, ast.circuits.find? (fun p => symbol.symbol == p.1) = none →
     ast.functions.find? (fun p => symbol.symbol == p.1) = some q →
     ∀ cp', (enforce_import_symbol fuel fs env cp scope entry symbol).state?
         = some cp' →
       (new_scope scope (symbol.alias_.getD symbol.symbol),
        ConstrainedValue.function none q.2) ∈ cp'.identifiers) := by
  refine ⟨?_, ?_, ?_⟩
  · intro hc hf
    exact enforce_import_symbol_unknown fuel fs env cp scope entry symbol fn
      ast hft hfn hp hc hf
  · intro p hc
    exact enforce_import_symbol_store_mem fuel fs env cp scope entry symbol fn
      ast hft hfn hp _ (Or.inl ⟨p, hc, rfl⟩)
  · intro q hc hf
    exact enforce_import_symbol_store_mem fuel fs env cp scope entry symbol fn
      ast hft hfn hp _ (Or.inr ⟨hc, q, hf, rfl⟩)

/-- Witness for C3_symbol_search_order: importing qux from foo.leo, which
defines neither a circuit nor a function named qux, fails with UnknownSymbol
naming qux, the program name and the searched path, leaving the empty store
untouched. -/
theorem C3_symbol_search_order_witness :
    enforce_import_symbol 1 fs0 env0 cp0 "main" entryFoo symMissing
      = .err cp0 (.unknownSymbol symMissing "main" ["cwd", "src/", "foo.leo"]) :=
  (C3_symbol_search_order 1 fs0 env0 cp0 "main" entryFoo symMissing "foo.leo"
    astFooBar rfl rfl rfl).1 (by decide) (by decide)

theorem find_matched_source_entry_panic (pkg : String) (pre : List DirEntry)
    (bad : DirEntry) (rest : List DirEntry)
    (hpre : ∀ e ∈ pre, ∃ s, e.fileName = some s ∧
        trimEndMatches SOURCE_FILE_EXTENSION s ≠ pkg)
    (hbad : bad.fileName = none) :
    find_matched_source_entry pkg (pre ++ bad :: rest) = none := by
  induction pre with
  | nil => simp [find_matched_source_entry, hbad]
  | cons e pre ih =>
    obtain ⟨s, hs, hns⟩ := hpre e (List.mem_cons_self e pre)
    simp only [List.cons_append, find_matched_source_entry, hs, if_neg hns]
    exact ih (fun e' he' => hpre e' (List.mem_cons_of_mem e he'))

theorem find_matched_source_entry_none (pkg : String)
    (entries : List DirEntry)
    (h : ∀ e ∈ entries, ∃ s, e.fileName = some s ∧
        trimEndMatches SOURCE_FILE_EXTENSION s ≠ pkg) :
    find_matched_source_entry pkg entries = some none := by
  induction entries with
  | nil => rfl
  | cons e rest ih =>
    obtain ⟨s, hs, hns⟩ := h e (List.mem_cons_self e rest)
    simp only [find_matched_source_entry, hs, if_neg hns]
    exact ih (fun e' he' => h e' (List.mem_cons_of_mem e he'))

theorem find_matched_source_entry_found (pkg : String) (pre : List DirEntry)
    (e : DirEntry) (post : List DirEntry)
    (hpre : ∀ e' ∈ pre, ∃ s, e'.fileName = some s ∧
        trimEndMatches SOURCE_FILE_EXTENSION s ≠ pkg)
    (hmatch : ∃ s, e.fileName = some s ∧
        trimEndMatches SOURCE_FILE_EXTENSION s = pkg) :
    find_matched_source_entry pkg (pre ++ e :: post) = some (some e) := by
  induction pre with
  | nil =>
    obtain ⟨s, hs, hm⟩ := hmatch
    simp [find_matched_source_entry, hs, hm]
  | cons e' pre ih =>
    obtain ⟨s, hs, hns⟩ := hpre e' (List.mem_cons_self e' pre)
    simp only [List.cons_append, find_matched_source_entry, hs, if_neg hns]
    exact ih (fun e'' he'' => hpre e'' (List.mem_cons_of_mem e' he''))

/-- Claim C4 (amended): enforce_package appends the fixed src/ segment to the
base path, fails with DirectoryError when listing that directory fails,
selects the first entry whose file name with every trailing .leo occurrence
repeatedly trimmed equals the package name and dispatches the access
specification on it, and fails with UnknownPackage naming the requested
package when no entry matches under that trimming. -/
theorem C4_package_lookup (fuel : Nat) (fs : FS) (env : Env)
    (cp : ConstrainedProgram) (scope : String) (path : List String)
    (package : Package) :
    (fs.readDir (path ++ [SOURCE_DIRECTORY_NAME]) = none →
      enforce_package fuel fs env cp scope path package
        = .err cp (.directoryError package.name.span)) ∧
    (∀ raw entries, fs.readDir (path ++ [SOURCE_DIRECTORY_NAME]) = some raw →
      collect_entries raw = some entries →
      (∀ e ∈ entries, ∃ s, e.fileName = some s ∧
          trimEndMatches SOURCE_FILE_EXTENSION s ≠ package.name.name) →
      enforce_package fuel fs env cp scope path package
        = .err cp (.unknownPackage package.name)) ∧
    (∀ raw pre e post,
      fs.readDir (path ++ [SOURCE_DIRECTORY_NAME]) = some raw →
      collect_entries raw = some (pre ++ e :: post) →
      (∀ e' ∈ pre, ∃ s, e'.fileName = some s ∧
          trimEndMatches SOURCE_FILE_EXTENSION s ≠ package.name.name) →
      (∃ s, e.fileName = some s ∧
          trimEndMatches SOURCE_FILE_EXTENSION s = package.name.name) →
      enforce_package fuel fs env cp scope path package
        = enforce_package_access fuel fs env cp scope e package.access) := by
  cases package with
  | mk package_name access =>
    refine ⟨?_, ?_, ?_⟩
    · intro hdir
      unfold enforce_package
      dsimp only
      rw [hdir]
      rfl
    · intro raw entries hdir hcol hall
      unfold enforce_package
      dsimp only
      rw [hdir]
      dsimp only
      rw [hcol]
      dsimp only [Package.name] at hall ⊢
      rw [find_matched_source_entry_none package_name.name entries hall]
    · intro raw pre e post hdir hcol hpre hm
      unfold enforce_package
      dsimp only
      rw [hdir]
      dsimp only
      rw [hcol]
      dsimp only [Package.name, Package.access] at hpre hm ⊢
      rw [find_matched_source_entry_found package_name.name pre e post hpre hm]

/-- Witness for C4_package_lookup: a listing failure yields DirectoryError,
and a src directory holding only unrelated.leo makes import foo.bar fail
with UnknownPackage naming foo. -/
theorem C4_package_lookup_witness :
    enforce_package 1 fs0 env0 cp0 "main" ["cwd"] pkgFooBar
      = .err cp0 (.directoryError sp) ∧
    enforce_package 1 fsFooLeoLeo env0 cp0 "other" ["elsewhere"] pkgFooBar
      = .err cp0 (.directoryError sp) :=
  ⟨(C4_package_lookup 1 fs0 env0 cp0 "main" ["cwd"] pkgFooBar).1 rfl,
   (C4_package_lookup 1 fsFooLeoLeo env0 cp0 "other" ["elsewhere"] pkgFooBar).1 rfl⟩

/-- Counterexample to claim C4 as stated: the source matches with
trim_end_matches, which removes every trailing .leo occurrence, not one
suffix; for the file foo.leo.leo and the package foo the once-stripped name
foo.leo differs from foo, so under the claim no entry matches and the lookup
must fail with UnknownPackage — but the code selects the entry and proceeds
into symbol resolution, failing with UnknownSymbol instead. -/
theorem C4_counterexample :
    enforce_package 1 fsFooLeoLeo env0 cp0 "main" ["cwd"] pkgFooBar
      = .err cp0 (.unknownSymbol symBar "main" ["cwd", "src/", "foo.leo.leo"]) ∧
    spec_stripped_file_name "foo.leo.leo" = "foo.leo" ∧
    trimEndMatches SOURCE_FILE_EXTENSION "foo.leo.leo" = "foo" ∧
    ("foo.leo" : String) ≠ "foo" := by
  refine ⟨?_, by decide, by decide, by decide⟩
  have htrim : trimEndMatches SOURCE_FILE_EXTENSION "foo.leo.leo" = "foo" := by
    decide
  have hfind : find_matched_source_entry "foo" [entryFooLeoLeo]
      = some (some entryFooLeoLeo) := by
    simp [find_matched_source_entry, entryFooLeoLeo, htrim]
  have hdir : fsFooLeoLeo.readDir (["cwd"] ++ [SOURCE_DIRECTORY_NAME])
      = some [.ok entryFooLeoLeo] := rfl
  unfold enforce_package
  dsimp only [pkgFooBar]
  rw [hdir]
  dsimp only
  rw [show collect_entries [.ok entryFooLeoLeo] = some [entryFooLeoLeo] from rfl]
  dsimp only
  rw [hfind]
  dsimp only
  simp [enforce_package_access, enforce_import_symbol, parse_import_file,
    entryFooLeoLeo, Program.from, Program.setName, cp0, symBar]

/-- Claim C2 (amended): parse_import_file converts a non-convertible file
name into the typed ConvertOsString error, but enforce_package is not total:
its entry search unwraps each listed file name, so reaching an entry whose
name is not convertible before any earlier entry matched panics instead of
returning a typed error. -/
theorem C2_typed_errors_and_name_unwrap :
    (∀ (entry : DirEntry) (span : Span) (b : Bool),
      entry.fileType = some b → entry.fileName = none →
      parse_import_file entry span = .error (.convertOsString span)) ∧
    (∀ (fuel : Nat) (fs : FS) (env : Env) (cp : ConstrainedProgram)
      (scope : String) (path : List String) (package : Package)
      (raw : List (Except Unit DirEntry)) (pre : List DirEntry)
      (bad : DirEntry) (rest : List DirEntry),
      fs.readDir (path ++ [SOURCE_DIRECTORY_NAME]) = some raw →
      collect_entries raw = some (pre ++ bad :: rest) →
      (∀ e ∈ pre, ∃ s, e.fileName = some s ∧
          trimEndMatches SOURCE_FILE_EXTENSION s ≠ package.name.name) →
      bad.fileName = none →
      enforce_package fuel fs env cp scope path package = .panic) := by
  constructor
  · intro entry span b hft hfn
    unfold parse_import_file
    rw [hft, hfn]
  · intro fuel fs env cp scope path package raw pre bad rest hdir hcol hpre hbad
    cases package with
    | mk package_name access =>
      unfold enforce_package
      dsimp only
      rw [hdir]
      dsimp only
      rw [hcol]
      dsimp only [Package.name] at hpre ⊢
      rw [find_matched_source_entry_panic package_name.name pre bad rest hpre hbad]

/-- Witness for C2_typed_errors_and_name_unwrap: the non-convertible entry
makes parse_import_file fail with ConvertOsString, while a src listing whose
single entry has a non-convertible name makes enforce_package panic. -/
theorem C2_typed_errors_and_name_unwrap_witness :
    parse_import_file entryNoName sp = .error (.convertOsString sp) ∧
    enforce_package 1 fsBadName env0 cp0 "main" ["cwd"] pkgFooQux = .panic :=
  ⟨C2_typed_errors_and_name_unwrap.1 entryNoName sp false rfl rfl,
   C2_typed_errors_and_name_unwrap.2 1 fsBadName env0 cp0 "main" ["cwd"]
     pkgFooQux [.ok entryNoName] [] entryNoName [] rfl rfl
     (by intro e he; simp at he) rfl⟩

/-- Counterexample to claim C2 as stated: enforce_package does not handle a
directory entry whose file name is not convertible — the unwrap in its entry
search panics rather than producing any typed error. -/
theorem C2_counterexample :
    enforce_package 1 fsBadName env0 cp0 "main" ["cwd"] pkgFooQux
      = .panic := by
  have hdir : fsBadName.readDir (["cwd"] ++ [SOURCE_DIRECTORY_NAME])
      = some [.ok entryNoName] := rfl
  unfold enforce_package
  dsimp only [pkgFooQux]
  rw [hdir]
  dsimp only
  rw [show collect_entries [.ok entryNoName] = some [entryNoName] from rfl]
  dsimp only
  rw [show find_matched_source_entry "foo" [entryNoName] = none from rfl]

/-- Claim C7 (amended): parse_import_file fails with DirectoryError when the
file type cannot be determined; otherwise it converts the file name first,
failing with ConvertOsString when the name is not convertible (this check
precedes the directory check, so a directory with a non-convertible name
reports ConvertOsString); a directory with a convertible name fails with the
expected-file error carrying that name; and a plain file with a convertible
name whose contents parse successfully yields a Program named after the
file name. -/
theorem C7_parse_import_file_cases (entry : DirEntry) (span : Span) :
    (entry.fileType = none →
      parse_import_file entry span = .error (.directoryError span)) ∧
    (∀ b, entry.fileType = some b → entry.fileName = none →
      parse_import_file entry span = .error (.convertOsString span)) ∧
    (∀ fn, entry.fileType = some true → entry.fileName = some fn →
      parse_import_file entry span = .error (.expectedFile fn span)) ∧
    (∀ fn ast, entry.fileType = some false → entry.fileName = some fn →
      entry.parsed = .ok ast →
      parse_import_file entry span = .ok (Program.from ast fn) ∧
      (Program.from ast fn).name = fn) := by
  refine ⟨?_, ?_, ?_, ?_⟩
  · intro hft
    unfold parse_import_file
    rw [hft]
  · intro b hft hfn
    unfold parse_import_file
    rw [hft, hfn]
  · intro fn hft hfn
    unfold parse_import_file
    rw [hft, hfn]
    rfl
  · intro fn ast hft hfn hp
    exact ⟨parse_import_file_ok entry span fn ast hft hfn hp, rfl⟩

/-- Witness for C7_parse_import_file_cases at the four concrete entries. -/
theorem C7_parse_import_file_cases_witness :
    parse_import_file entryNoType sp = .error (.directoryError sp) ∧
    parse_import_file entryNoName sp = .error (.convertOsString sp) ∧
    parse_import_file entryDir sp = .error (.expectedFile "d.leo" sp) ∧
    parse_import_file entryFoo sp = .ok (Program.from astFooBar "foo.leo") :=
  ⟨(C7_parse_import_file_cases entryNoType sp).1 rfl,
   (C7_parse_import_file_cases entryNoName sp).2.1 false rfl rfl,
   (C7_parse_import_file_cases entryDir sp).2.2.1 "d.leo" rfl rfl,
   ((C7_parse_import_file_cases entryFoo sp).2.2.2 "foo.leo" astFooBar rfl rfl
     rfl).1⟩

/-- Counterexample to claim C7 as stated: an entry that is a directory with a
non-convertible file name fails with ConvertOsString, not with the
expected-file error the claim assigns to every directory entry. -/
theorem C7_counterexample :
    parse_import_file entryDirNoName sp = .error (.convertOsString sp) ∧
    entryDirNoName.fileType = some true ∧
    (∀ s, parse_import_file entryDirNoName sp ≠ .error (.expectedFile s sp)) := by
  refine ⟨rfl, rfl, ?_⟩
  intro s h
  simp [parse_import_file, entryDirNoName] at h

theorem enforce_package_access_list_append_ok (fuel : Nat) (fs : FS)
    (env : Env) (cp cp₁ : ConstrainedProgram) (scope : String)
    (entry : DirEntry) (l1 rest : List PackageAccess)
    (h1 : enforce_package_access_list fuel fs env cp scope entry l1 = .ok cp₁) :
    enforce_package_access_list fuel fs env cp scope entry (l1 ++ rest)
      = enforce_package_access_list fuel fs env cp₁ scope entry rest := by
  induction l1 generalizing cp with
  | nil =>
    unfold enforce_package_access_list at h1
    cases h1
    rfl
  | cons a l1 ih =>
    unfold enforce_package_access_list at h1
    rw [List.cons_append]
    rw [enforce_package_access_list]
    cases hr : enforce_package_access fuel fs env cp scope entry a with
    | panic => rw [hr] at h1; cases h1
    | err cpe e => rw [hr] at h1; cases h1
    | ok cpo => rw [hr] at h1; exact ih cpo h1

/-- Claim C6: a Multiple package-access list is applied in list order under
the same importing scope; the first failing entry aborts the whole list
immediately with that failure (entries after it are never reached), and the
state reported with the failure extends the state the earlier successful
entries produced — their store effects are not rolled back. -/
theorem C6_multiple_short_circuit (fuel : Nat) (fs : FS) (env : Env)
    (cp cp₁ cp₂ : ConstrainedProgram) (scope : String) (entry : DirEntry)
    (l1 : List PackageAccess) (a : PackageAccess) (l2 : List PackageAccess)
    (e : ImportError)
    (h1 : enforce_package_access_list fuel fs env cp scope entry l1 = .ok cp₁)
    (h2 : enforce_package_access fuel fs env cp₁ scope entry a = .err cp₂ e) :
    enforce_package_access fuel fs env cp scope entry
        (.multiple (l1 ++ a :: l2)) = .err cp₂ e ∧
    (∀ kv, kv ∈ cp₁.identifiers → kv ∈ cp₂.identifiers) := by
  constructor
  · unfold enforce_package_access
    rw [enforce_package_access_list_append_ok fuel fs env cp cp₁ scope entry
      l1 (a :: l2) h1]
    unfold enforce_package_access_list
    rw [h2]
  · intro kv hkv
    exact enforce_package_access_preserves fuel fs env cp₁ scope entry a cp₂
      (by rw [h2]; rfl) kv hkv

/-- Witness for C6_multiple_short_circuit: the list [Symbol a, Symbol b] over
a file defining only the circuit a installs a, then fails on b with
UnknownSymbol; the whole Multiple access reports that failure while the store
reported with it still holds the entry installed for a. -/
theorem C6_multiple_short_circuit_witness :
    enforce_package_access 1 fs0 env0 cp0 "main" entryA
        (.multiple [.symbol symA, .symbol symB])
      = .err ⟨[("main_a", .circuitDefinition ⟨2⟩)]⟩
          (.unknownSymbol symB "main" ["cwd", "src/", "foo.leo"]) ∧
    ("main_a", ConstrainedValue.circuitDefinition ⟨2⟩)
      ∈ (ConstrainedProgram.mk
          [("main_a", .circuitDefinition ⟨2⟩)]).identifiers := by
  have h1 : enforce_package_access_list 1 fs0 env0 cp0 "main" entryA
      [.symbol symA] = .ok ⟨[("main_a", .circuitDefinition ⟨2⟩)]⟩ := by
    unfold enforce_package_access_list
    unfold enforce_package_access
    rw [show enforce_import_symbol 1 fs0 env0 cp0 "main" entryA symA
        = .ok ⟨[("main_a", .circuitDefinition ⟨2⟩)]⟩ from by
      simp [enforce_import_symbol, parse_import_file, entryA, astA, symA,
        Program.from, Program.setName, new_scope, ConstrainedProgram.store, cp0]]
    dsimp only
    unfold enforce_package_access_list
    rfl
  have h2 : enforce_package_access 1 fs0 env0
      ⟨[("main_a", .circuitDefinition ⟨2⟩)]⟩ "main" entryA (.symbol symB)
      = .err ⟨[("main_a", .circuitDefinition ⟨2⟩)]⟩
          (.unknownSymbol symB "main" ["cwd", "src/", "foo.leo"]) := by
    unfold enforce_package_access
    exact enforce_import_symbol_unknown 1 fs0 env0
      ⟨[("main_a", .circuitDefinition ⟨2⟩)]⟩ "main" entryA symB "foo.leo" astA
      rfl rfl rfl (by decide) (by decide)
  exact ⟨(C6_multiple_short_circuit 1 fs0 env0 cp0
      ⟨[("main_a", .circuitDefinition ⟨2⟩)]⟩
      ⟨[("main_a", .circuitDefinition ⟨2⟩)]⟩ "main" entryA [.symbol symA]
      (.symbol symB) [] (.unknownSymbol symB "main" ["cwd", "src/", "foo.leo"])
      h1 h2).1,
    List.mem_singleton.mpr rfl⟩

theorem all_insert_iff (l : List String) : ∀ seen : List String,
    all_insert seen l = true ↔ l.Nodup ∧ ∀ x ∈ l, x ∉ seen := by
  induction l with
  | nil => intro seen; simp [all_insert]
  | cons n rest ih =>
    intro seen
    unfold all_insert
    by_cases hc : n ∈ seen
    · simp only [if_pos hc]
      constructor
      · intro h; cases h
      · rintro ⟨-, hall⟩
        exact absurd hc (hall n (List.mem_cons_self n rest))
    · simp only [if_neg hc]
      rw [ih (n :: seen)]
      simp only [List.nodup_cons, List.mem_cons]
      constructor
      · rintro ⟨hnd, hall⟩
        refine ⟨⟨?_, hnd⟩, ?_⟩
        · intro hmem
          exact (hall n hmem) (Or.inl rfl)
        · intro x hx
          rcases hx with rfl | hx
          · exact hc
          · intro hxs
            exact (hall x hx) (Or.inr hxs)
      · rintro ⟨⟨hnr, hnd⟩, hall⟩
        refine ⟨hnd, ?_⟩
        intro x hx hxs
        rcases hxs with rfl | hxs
        · exact hnr hx
        · exact (hall x (Or.inr hx)) hxs

theorem all_insert_nil_iff (l : List String) :
    all_insert [] l = true ↔ l.Nodup := by
  rw [all_insert_iff]
  simp

theorem check_has_field_none (input : Circuit) (need : String) (t : LType)
    (h : find_member input.members need = none) :
    check_has_field input need t
      = [.requiredRecordVariable need t input.span] := by
  unfold check_has_field
  rw [h]

theorem check_has_field_wrong (input : Circuit) (need : String) (t : LType)
    (v : Identifier) (ty : LType)
    (h : find_member input.members need = some (v, ty))
    (ht : t.eq_flat ty = false) :
    check_has_field input need t = [.recordVarWrongType v t input.span] := by
  unfold check_has_field
  rw [h]
  simp [ht]

theorem check_has_field_okT (input : Circuit) (need : String) (t : LType)
    (v : Identifier) (ty : LType)
    (h : find_member input.members need = some (v, ty))
    (ht : t.eq_flat ty = true) :
    check_has_field input need t = [] := by
  unfold check_has_field
  rw [h]
  simp [ht]

theorem check_has_field_shape (input : Circuit) (need : String) (t : LType) :
    ∀ d ∈ check_has_field input need t,
      d = .requiredRecordVariable need t input.span ∨
      ∃ v, d = .recordVarWrongType v t input.span := by
  intro d hd
  unfold check_has_field at hd
  split at hd
  · rename_i vt heq
    split at hd
    · cases hd
    · rw [List.mem_singleton] at hd
      subst hd
      exact Or.inr ⟨vt.1, rfl⟩
  · rw [List.mem_singleton] at hd
    subst hd
    exact Or.inl rfl

theorem not_mem_check_has_field_required (input : Circuit) (need : String)
    (t : LType) (need' : String) (t' : LType)
    (hne : ¬(need' = need ∧ t' = t)) :
    TypeCheckerError.requiredRecordVariable need' t' input.span
      ∉ check_has_field input need t := by
  intro hmem
  rcases check_has_field_shape input need t _ hmem with heq | ⟨v, heq⟩
  · injection heq with h1 h2 h3
    exact hne ⟨h1, h2⟩
  · cases heq

theorem not_mem_check_has_field_wrong (input : Circuit) (need : String)
    (t : LType) (v' : Identifier) (t' : LType) (hne : t' ≠ t) :
    TypeCheckerError.recordVarWrongType v' t' input.span
      ∉ check_has_field input need t := by
  intro hmem
  rcases check_has_field_shape input need t _ hmem with heq | ⟨v, heq⟩
  · cases heq
  · injection heq with h1 h2 h3
    exact hne h2

theorem dup_diags_pred (c : Circuit) :
    ∀ d ∈ dup_diags c, isDuplicateMemberDiag d = true := by
  intro d hd
  unfold dup_diags at hd
  split at hd
  · rw [List.mem_singleton] at hd
    subst hd
    split
    · rfl
    · rfl
  · cases hd

theorem check_has_field_countP_dup (input : Circuit) (need : String)
    (t : LType) :
    (check_has_field input need t).countP isDuplicateMemberDiag = 0 := by
  rw [List.countP_eq_zero]
  intro d hd
  rcases check_has_field_shape input need t d hd with heq | ⟨v, heq⟩ <;>
    subst heq <;> simp [isDuplicateMemberDiag]

theorem record_diags_countP_dup (c : Circuit) :
    (record_diags c).countP isDuplicateMemberDiag = 0 := by
  unfold record_diags
  split
  · rw [List.countP_append, check_has_field_countP_dup,
      check_has_field_countP_dup]
  · rfl

theorem mem_circuit_diags_record (c : Circuit) (h : c.is_record = true)
    (d : TypeCheckerError) :
    d ∈ circuit_diags c ↔
      d ∈ dup_diags c ∨ d ∈ check_has_field c sym.owner .address ∨
      d ∈ check_has_field c sym.balance (.integerType .u64) := by
  simp [circuit_diags, record_diags, h, List.mem_append, or_assoc]

/-- Claim C8: an aggregate-type declaration whose member names contain a
repetition produces exactly one duplicate diagnostic for the whole
declaration — the record variant when is_record is set, the circuit variant
otherwise — and a declaration with pairwise-distinct member names produces
none. -/
theorem C8_duplicate_member_diag (c : Circuit) :
    (¬ (c.members.map CircuitMember.name).Nodup →
      (circuit_diags c).countP isDuplicateMemberDiag = 1 ∧
      (if c.is_record
       then TypeCheckerError.duplicateRecordVariable c.name c.span
       else TypeCheckerError.duplicateCircuitMember c.name c.span)
        ∈ circuit_diags c) ∧
    ((c.members.map CircuitMember.name).Nodup →
      (circuit_diags c).countP isDuplicateMemberDiag = 0) := by
  constructor
  · intro hnd
    have hall : all_insert [] (c.members.map CircuitMember.name) = false := by
      cases hb : all_insert [] (c.members.map CircuitMember.name)
      · rfl
      · exact absurd ((all_insert_nil_iff _).mp hb) hnd
    have hdup : dup_diags c
        = [if c.is_record
           then TypeCheckerError.duplicateRecordVariable c.name c.span
           else TypeCheckerError.duplicateCircuitMember c.name c.span] := by
      unfold dup_diags
      rw [hall]
      rfl
    constructor
    · unfold circuit_diags
      rw [List.countP_append, hdup, record_diags_countP_dup]
      cases hrec : c.is_record <;>
        simp [hrec, List.countP_cons, isDuplicateMemberDiag]
    · unfold circuit_diags
      rw [hdup]
      exact List.mem_append_left _ (List.mem_singleton.mpr rfl)
  · intro hnd
    have hall : all_insert [] (c.members.map CircuitMember.name) = true :=
      (all_insert_nil_iff _).mpr hnd
    have hdup : dup_diags c = [] := by
      unfold dup_diags
      rw [hall]
      rfl
    unfold circuit_diags
    rw [List.countP_append, hdup, record_diags_countP_dup]
    rfl

/-- Witness for C8_duplicate_member_diag: a non-record aggregate with two
members named n yields one duplicate-circuit-member diagnostic, the same
situation on a record yields one duplicate-record-variable diagnostic, and a
record with distinct member names yields no duplicate diagnostic. -/
theorem C8_duplicate_member_diag_witness :
    (circuit_diags circDup).countP isDuplicateMemberDiag = 1 ∧
    TypeCheckerError.duplicateCircuitMember "C1" sp ∈ circuit_diags circDup ∧
    (circuit_diags recDup).countP isDuplicateMemberDiag = 1 ∧
    TypeCheckerError.duplicateRecordVariable "R4" sp ∈ circuit_diags recDup ∧
    (circuit_diags recGood).countP isDuplicateMemberDiag = 0 :=
  ⟨((C8_duplicate_member_diag circDup).1 (by decide)).1,
   ((C8_duplicate_member_diag circDup).1 (by decide)).2,
   ((C8_duplicate_member_diag recDup).1 (by decide)).1,
   ((C8_duplicate_member_diag recDup).1 (by decide)).2,
   (C8_duplicate_member_diag recGood).2 (by decide)⟩

/-- Claim C5: for a record-flagged declaration and each mandatory field
(owner with the address type, balance with the 64-bit unsigned integer
type), visit_circuit emits the required-record-variable diagnostic naming
the field and its expected type when no member carries the name, emits the
record-variable-wrong-type diagnostic when the first member carrying the
name has a type unequal under flat structural equality, and emits no
diagnostic for that field when name and type match; the two diagnostics are
mutually exclusive per field. -/
theorem C5_record_mandatory_fields (c : Circuit) (h : c.is_record = true) :
    ((find_member c.members sym.owner = none →
        TypeCheckerError.requiredRecordVariable sym.owner .address c.span
          ∈ circuit_diags c ∧
        ∀ v, TypeCheckerError.recordVarWrongType v .address c.span
          ∉ circuit_diags c) ∧
     (∀ v t, find_member c.members sym.owner = some (v, t) →
        LType.eq_flat .address t = false →
        TypeCheckerError.recordVarWrongType v .address c.span
          ∈ circuit_diags c ∧
        TypeCheckerError.requiredRecordVariable sym.owner .address c.span
          ∉ circuit_diags c) ∧
     (∀ v t, find_member c.members sym.owner = some (v, t) →
        LType.eq_flat .address t = true →
        (∀ v', TypeCheckerError.recordVarWrongType v' .address c.span
          ∉ circuit_diags c) ∧
        TypeCheckerError.requiredRecordVariable sym.owner .address c.span
          ∉ circuit_diags c)) ∧
    ((find_member c.members sym.balance = none →
        TypeCheckerError.requiredRecordVariable sym.balance
          (.integerType .u64) c.span ∈ circuit_diags c ∧
        ∀ v, TypeCheckerError.recordVarWrongType v (.integerType .u64) c.span
          ∉ circuit_diags c) ∧
     (∀ v t, find_member c.members sym.balance = some (v, t) →
        LType.eq_flat (.integerType .u64) t = false →
        TypeCheckerError.recordVarWrongType v (.integerType .u64) c.span
          ∈ circuit_diags c ∧
        TypeCheckerError.requiredRecordVariable sym.balance
          (.integerType .u64) c.span ∉ circuit_diags c) ∧
     (∀ v t, find_member c.members sym.balance = some (v, t) →
        LType.eq_flat (.integerType .u64) t = true →
        (∀ v', TypeCheckerError.recordVarWrongType v' (.integerType .u64)
          c.span ∉ circuit_diags c) ∧
        TypeCheckerError.requiredRecordVariable sym.balance
          (.integerType .u64) c.span ∉ circuit_diags c)) := by
  refine ⟨⟨?_, ?_, ?_⟩, ?_, ?_, ?_⟩
  · intro hfind
    have hchf := check_has_field_none c sym.owner .address hfind
    constructor
    · rw [mem_circuit_diags_record c h]
      right; left
      rw [hchf]
      exact List.mem_singleton.mpr rfl
    · intro v hmem
      rcases (mem_circuit_diags_record c h _).mp hmem with h1 | h2 | h3
      · have := dup_diags_pred c _ h1
        simp [isDuplicateMemberDiag] at this
      · rw [hchf, List.mem_singleton] at h2
        cases h2
      · exact not_mem_check_has_field_wrong c sym.balance (.integerType .u64)
          v .address (by decide) h3
  · intro v t hfind hflat
    have hchf := check_has_field_wrong c sym.owner .address v t hfind hflat
    constructor
    · rw [mem_circuit_diags_record c h]
      right; left
      rw [hchf]
      exact List.mem_singleton.mpr rfl
    · intro hmem
      rcases (mem_circuit_diags_record c h _).mp hmem with h1 | h2 | h3
      · have := dup_diags_pred c _ h1
        simp [isDuplicateMemberDiag] at this
      · rw [hchf, List.mem_singleton] at h2
        cases h2
      · exact not_mem_check_has_field_required c sym.balance
          (.integerType .u64) sym.owner .address (by decide) h3
  · intro v t hfind hflat
    have hchf := check_has_field_okT c sym.owner .address v t hfind hflat
    constructor
    · intro v' hmem
      rcases (mem_circuit_diags_record c h _).mp hmem with h1 | h2 | h3
      · have := dup_diags_pred c _ h1
        simp [isDuplicateMemberDiag] at this
      · rw [hchf] at h2
        cases h2
      · exact not_mem_check_has_field_wrong c sym.balance (.integerType .u64)
          v' .address (by decide) h3
    · intro hmem
      rcases (mem_circuit_diags_record c h _).mp hmem with h1 | h2 | h3
      · have := dup_diags_pred c _ h1
        simp [isDuplicateMemberDiag] at this
      · rw [hchf] at h2
        cases h2
      · exact not_mem_check_has_field_required c sym.balance
          (.integerType .u64) sym.owner .address (by decide) h3
  · intro hfind
    have hchf := check_has_field_none c sym.balance (.integerType .u64) hfind
    constructor
    · rw [mem_circuit_diags_record c h]
      right; right
      rw [hchf]
      exact List.mem_singleton.mpr rfl
    · intro v hmem
      rcases (mem_circuit_diags_record c h _).mp hmem with h1 | h2 | h3
      · have := dup_diags_pred c _ h1
        simp [isDuplicateMemberDiag] at this
      · exact not_mem_check_has_field_wrong c sym.owner .address v
          (.integerType .u64) (by decide) h2
      · rw [hchf, List.mem_singleton] at h3
        cases h3
  · intro v t hfind hflat
    have hchf := check_has_field_wrong c sym.balance (.integerType .u64) v t
      hfind hflat
    constructor
    · rw [mem_circuit_diags_record c h]
      right; right
      rw [hchf]
      exact List.mem_singleton.mpr rfl
    · intro hmem
      rcases (mem_circuit_diags_record c h _).mp hmem with h1 | h2 | h3
      · have := dup_diags_pred c _ h1
        simp [isDuplicateMemberDiag] at this
      · exact not_mem_check_has_field_required c sym.owner .address
          sym.balance (.integerType .u64) (by decide) h2
      · rw [hchf, List.mem_singleton] at h3
        cases h3
  · intro v t hfind hflat
    have hchf := check_has_field_okT c sym.balance (.integerType .u64) v t
      hfind hflat
    constructor
    · intro v' hmem
      rcases (mem_circuit_diags_record c h _).mp hmem with h1 | h2 | h3
      · have := dup_diags_pred c _ h1
        simp [isDuplicateMemberDiag] at this
      · exact not_mem_check_has_field_wrong c sym.owner .address v'
          (.integerType .u64) (by decide) h2
      · rw [hchf] at h3
        cases h3
    · intro hmem
      rcases (mem_circuit_diags_record c h _).mp hmem with h1 | h2 | h3
      · have := dup_diags_pred c _ h1
        simp [isDuplicateMemberDiag] at this
      · exact not_mem_check_has_field_required c sym.owner .address
          sym.balance (.integerType .u64) (by decide) h2
      · rw [hchf] at h3
        cases h3

/-- Witness for C5_record_mandatory_fields: a record missing owner gets the
required-record-variable diagnostic for owner and no wrong-type diagnostic;
a record with owner typed as a string gets the wrong-type diagnostic; a
well-formed record gets neither diagnostic for owner. -/
theorem C5_record_mandatory_fields_witness :
    TypeCheckerError.requiredRecordVariable "owner" .address sp
      ∈ circuit_diags recMissingOwner ∧
    (∀ v, TypeCheckerError.recordVarWrongType v .address sp
      ∉ circuit_diags recMissingOwner) ∧
    TypeCheckerError.recordVarWrongType ⟨"owner", sp⟩ .address sp
      ∈ circuit_diags recWrongOwner ∧
    (∀ v, TypeCheckerError.recordVarWrongType v .address sp
      ∉ circuit_diags recGood) ∧
    TypeCheckerError.requiredRecordVariable "owner" .address sp
      ∉ circuit_diags recGood :=
  ⟨((C5_record_mandatory_fields recMissingOwner rfl).1.1 (by decide)).1,
   ((C5_record_mandatory_fields recMissingOwner rfl).1.1 (by decide)).2,
   ((C5_record_mandatory_fields recWrongOwner rfl).1.2.1 ⟨"owner", sp⟩
     .string (by decide) (by decide)).1,
   ((C5_record_mandatory_fields recGood rfl).1.2.2 ⟨"owner", sp⟩ .address
     (by decide) (by decide)).1,
   ((C5_record_mandatory_fields recGood rfl).1.2.2 ⟨"owner", sp⟩ .address
     (by decide) (by decide)).2⟩

theorem find_member_first (pre : List CircuitMember) (v : Identifier)
    (t : LType) (post : List CircuitMember) (need : String)
    (hpre : ∀ m ∈ pre, CircuitMember.name m ≠ need) (hv : v.name = need) :
    find_member (pre ++ CircuitMember.circuitVariable v t :: post) need
      = some (v, t) := by
  induction pre with
  | nil =>
    simp [find_member, List.findSome?_cons, hv]
  | cons m pre ih =>
    cases m with
    | circuitVariable v' t' =>
      have hne : v'.name ≠ need := hpre _ (List.mem_cons_self _ _)
      rw [List.cons_append]
      unfold find_member at ih ⊢
      rw [List.findSome?_cons]
      simp only [beq_eq_false_iff_ne.mpr hne, if_false]
      exact ih (fun m hm => hpre m (List.mem_cons_of_mem _ hm))

/-- Claim C10: when a record declaration has several members sharing a
mandatory field name, visit_circuit checks only the first such member in
declaration order: when that first member has a type unequal to the expected
one under flat equality, the record-variable-wrong-type diagnostic is
emitted for it even though a later member with the same name carries the
correct type. -/
theorem C10_first_member_checked (c : Circuit) (h : c.is_record = true)
    (need : String) (expected : LType)
    (hfield : (need = sym.owner ∧ expected = LType.address) ∨
              (need = sym.balance ∧ expected = LType.integerType .u64))
    (pre post : List CircuitMember) (v : Identifier) (t : LType)
    (hmem : c.members = pre ++ CircuitMember.circuitVariable v t :: post)
    (hpre : ∀ m ∈ pre, CircuitMember.name m ≠ need)
    (hv : v.name = need) (ht : expected.eq_flat t = false)
    (v₂ : Identifier) (t₂ : LType)
    (hlater : CircuitMember.circuitVariable v₂ t₂ ∈ post)
    (hv₂ : v₂.name = need) (ht₂ : expected.eq_flat t₂ = true) :
    TypeCheckerError.recordVarWrongType v expected c.span
      ∈ circuit_diags c := by
  have hfind : find_member c.members need = some (v, t) := by
    rw [hmem]
    exact find_member_first pre v t post need hpre hv
  have hchf := check_has_field_wrong c need expected v t hfind ht
  rw [mem_circuit_diags_record c h]
  rcases hfield with ⟨rfl, rfl⟩ | ⟨rfl, rfl⟩
  · right; left
    rw [hchf]
    exact List.mem_singleton.mpr rfl
  · right; right
    rw [hchf]
    exact List.mem_singleton.mpr rfl

/-- Witness for C10_first_member_checked: a record whose first owner member
is typed as a string and whose second owner member is a correct address
still gets the wrong-type diagnostic for the first one. -/
theorem C10_first_member_checked_witness :
    TypeCheckerError.recordVarWrongType ⟨"owner", sp⟩ LType.address sp
      ∈ circuit_diags recDupOwner :=
  C10_first_member_checked recDupOwner rfl "owner" LType.address
    (Or.inl ⟨rfl, rfl⟩) [] [cv "owner" .address, cv "balance" (.integerType .u64)]
    ⟨"owner", sp⟩ .string rfl (by intro m hm; cases hm) rfl (by decide)
    ⟨"owner", sp⟩ .address (List.mem_cons_self _ _) rfl (by decide)

theorem process_function_input_dup (tc : TypeChecker)
    (i : FunctionInputVariable)
    (hmem : tc.symbolTable.any (fun p => p.1 == i.identifier.name) = true) :
    process_function_input tc i
      = { tc with emitted := tc.emitted ++ tc.checkIdentDiags (some i.type_)
            ++ [.duplicateVariable i.identifier.name i.identifier.span] } := by
  simp [process_function_input, insert_variable, TypeChecker.emitAll,
    TypeChecker.emit, hmem]

theorem process_function_input_ins (tc : TypeChecker)
    (i : FunctionInputVariable)
    (hmem : tc.symbolTable.any (fun p => p.1 == i.identifier.name) = false) :
    process_function_input tc i
      = { tc with
          emitted := tc.emitted ++ tc.checkIdentDiags (some i.type_),
          symbolTable := tc.symbolTable
            ++ [(i.identifier.name,
                 ⟨i.type_, i.identifier.span, .input i.mode⟩)] } := by
  simp [process_function_input, insert_variable, TypeChecker.emitAll,
    TypeChecker.emit, hmem]

theorem fold_process_hasReturn (inputs : List FunctionInputVariable) :
    ∀ tc : TypeChecker,
    (inputs.foldl process_function_input tc).hasReturn = tc.hasReturn := by
  induction inputs with
  | nil => intro tc; rfl
  | cons i rest ih =>
    intro tc
    rw [List.foldl_cons, ih]
    unfold process_function_input
    dsimp only
    split <;> rfl

theorem fold_dup_count_in_table (n : String)
    (inputs : List FunctionInputVariable) : ∀ tc : TypeChecker,
    (∀ t d, d ∈ tc.checkIdentDiags t →
      isDuplicateVariableDiagFor n d = false) →
    tc.symbolTable.any (fun p => p.1 == n) = true →
    ((inputs.foldl process_function_input tc).emitted).countP
        (isDuplicateVariableDiagFor n)
      = tc.emitted.countP (isDuplicateVariableDiagFor n)
        + (inputs.map (fun i => i.identifier.name)).count n := by
  induction inputs with
  | nil => intro tc hchk htab; simp
  | cons i rest ih =>
    intro tc hchk htab
    rw [List.foldl_cons]
    have hchk0 : (tc.checkIdentDiags (some i.type_)).countP
        (isDuplicateVariableDiagFor n) = 0 :=
      List.countP_eq_zero.mpr (fun d hd => by simp [hchk _ d hd])
    cases hmem : tc.symbolTable.any (fun p => p.1 == i.identifier.name) with
    | true =>
      rw [process_function_input_dup tc i hmem]
      rw [ih { tc with emitted := tc.emitted ++ tc.checkIdentDiags (some i.type_)
          ++ [TypeCheckerError.duplicateVariable i.identifier.name
              i.identifier.span] } hchk htab]
      simp only [List.countP_append, List.countP_cons, List.countP_nil,
        List.map_cons, List.count_cons, hchk0, isDuplicateVariableDiagFor]
      generalize (if (i.identifier.name == n) = true then (1 : Nat) else 0) = k
      omega
    | false =>
      have hni : (i.identifier.name == n) = false := by
        cases hb : i.identifier.name == n
        · rfl
        · have heq : i.identifier.name = n := eq_of_beq hb
          rw [heq] at hmem
          rw [hmem] at htab
          cases htab
      rw [process_function_input_ins tc i hmem]
      rw [ih { tc with
          emitted := tc.emitted ++ tc.checkIdentDiags (some i.type_),
          symbolTable := tc.symbolTable
            ++ [(i.identifier.name,
                 ⟨i.type_, i.identifier.span, Declaration.input i.mode⟩)] } hchk (by simp [List.any_append, htab])]
      simp only [List.countP_append, List.map_cons, List.count_cons, hchk0,
        hni]
      simp

theorem fold_dup_count_fresh (n : String)
    (inputs : List FunctionInputVariable) : ∀ tc : TypeChecker,
    (∀ t d, d ∈ tc.checkIdentDiags t →
      isDuplicateVariableDiagFor n d = false) →
    tc.symbolTable.any (fun p => p.1 == n) = false →
    ((inputs.foldl process_function_input tc).emitted).countP
        (isDuplicateVariableDiagFor n)
      + (if (inputs.map (fun i => i.identifier.name)).count n = 0 then 0
         else 1)
      = tc.emitted.countP (isDuplicateVariableDiagFor n)
        + (inputs.map (fun i => i.identifier.name)).count n := by
  induction inputs with
  | nil => intro tc hchk htab; simp
  | cons i rest ih =>
    intro tc hchk htab
    rw [List.foldl_cons]
    have hchk0 : (tc.checkIdentDiags (some i.type_)).countP
        (isDuplicateVariableDiagFor n) = 0 :=
      List.countP_eq_zero.mpr (fun d hd => by simp [hchk _ d hd])
    cases hni : i.identifier.name == n with
    | true =>
      have hnieq : i.identifier.name = n := eq_of_beq hni
      have hmem : tc.symbolTable.any
          (fun p => p.1 == i.identifier.name) = false := by
        rw [hnieq]; exact htab
      rw [process_function_input_ins tc i hmem]
      rw [fold_dup_count_in_table n rest { tc with
          emitted := tc.emitted ++ tc.checkIdentDiags (some i.type_),
          symbolTable := tc.symbolTable
            ++ [(i.identifier.name,
                 ⟨i.type_, i.identifier.span, Declaration.input i.mode⟩)] } hchk
        (by simp [List.any_append, hnieq])]
      simp only [List.countP_append, List.map_cons, List.count_cons, hchk0,
        hni]
      simp
      omega
    | false =>
      cases hmem : tc.symbolTable.any
          (fun p => p.1 == i.identifier.name) with
      | true =>
        rw [process_function_input_dup tc i hmem]
        have hih := ih { tc with emitted := tc.emitted ++ tc.checkIdentDiags (some i.type_)
          ++ [TypeCheckerError.duplicateVariable i.identifier.name
              i.identifier.span] } hchk htab
        simp only [List.countP_append, List.countP_cons, List.countP_nil,
          List.map_cons, List.count_cons, hchk0, isDuplicateVariableDiagFor,
          hni] at hih ⊢
        simp at hih ⊢
        omega
      | false =>
        rw [process_function_input_ins tc i hmem]
        have hih := ih { tc with
          emitted := tc.emitted ++ tc.checkIdentDiags (some i.type_),
          symbolTable := tc.symbolTable
            ++ [(i.identifier.name,
                 ⟨i.type_, i.identifier.span, Declaration.input i.mode⟩)] } hchk (by simp [List.any_append, htab, hni])
        simp only [List.countP_append, List.map_cons, List.count_cons, hchk0,
          hni] at hih ⊢
        simp at hih ⊢
        omega

theorem visit_function_emitted (tc : TypeChecker) (f : Function) :
    (visit_function tc f).emitted
      = (f.input.foldl process_function_input
          { tc with hasReturn := false, symbolTable := [],
                    parent := some f.name }).emitted
        ++ f.block.visitDiags
        ++ (if f.block.containsReturn then []
            else [.functionHasNoReturn f.name f.span]) := by
  unfold visit_function
  dsimp only
  unfold visit_block
  cases hb : f.block.containsReturn
  · simp [TypeChecker.emit, fold_process_hasReturn]
  · simp [TypeChecker.emit, fold_process_hasReturn]

/-- Claim C9 (amended): for a function whose parameter list repeats a name,
visit_function emits one duplicate-variable diagnostic per repeated
occurrence after the first — a name occurring k ≥ 2 times among the
parameters yields exactly k - 1 such diagnostics (one when the name is
repeated across exactly two parameters) — and the analysis is not aborted:
the body is still visited and the return requirement still checked. -/
theorem C9_duplicate_parameter_diags (tc : TypeChecker) (f : Function)
    (n : String)
    (hchk : ∀ t d, d ∈ tc.checkIdentDiags t →
      isDuplicateVariableDiagFor n d = false)
    (hblk : ∀ d ∈ f.block.visitDiags, isDuplicateVariableDiagFor n d = false)
    (hk : 2 ≤ (f.input.map (fun i => i.identifier.name)).count n) :
    (visit_function tc f).emitted.countP (isDuplicateVariableDiagFor n)
      = tc.emitted.countP (isDuplicateVariableDiagFor n)
        + ((f.input.map (fun i => i.identifier.name)).count n - 1) ∧
    (∀ d ∈ f.block.visitDiags, d ∈ (visit_function tc f).emitted) ∧
    (f.block.containsReturn = false →
      TypeCheckerError.functionHasNoReturn f.name f.span
        ∈ (visit_function tc f).emitted) := by
  have hfresh := fold_dup_count_fresh n f.input
    { tc with hasReturn := false, symbolTable := [], parent := some f.name }
    hchk rfl
  have hemit : (TypeChecker.mk tc.checkIdentDiags false [] (some f.name)
      tc.emitted).emitted = tc.emitted := rfl
  rw [hemit] at hfresh
  refine ⟨?_, ?_, ?_⟩
  · rw [visit_function_emitted]
    rw [List.countP_append, List.countP_append]
    have hb0 : f.block.visitDiags.countP (isDuplicateVariableDiagFor n) = 0 :=
      List.countP_eq_zero.mpr (fun d hd => by simp [hblk d hd])
    have hr0 : (if f.block.containsReturn then []
        else [TypeCheckerError.functionHasNoReturn f.name f.span]).countP
          (isDuplicateVariableDiagFor n) = 0 := by
      cases f.block.containsReturn <;>
        simp [isDuplicateVariableDiagFor]
    rw [hb0, hr0]
    have hcnt : ¬ ((f.input.map (fun i => i.identifier.name)).count n = 0) :=
      by omega
    rw [if_neg hcnt] at hfresh
    omega
  · intro d hd
    rw [visit_function_emitted]
    exact List.mem_append_left _ (List.mem_append_right _ hd)
  · intro hb
    rw [visit_function_emitted, hb]
    exact List.mem_append_right _ (List.mem_singleton.mpr rfl)

/-- Witness for C9_duplicate_parameter_diags at the function with the
parameter name x repeated across three parameters. -/
theorem C9_duplicate_parameter_diags_witness :
    (visit_function tc0 fXXX).emitted.countP (isDuplicateVariableDiagFor "x")
      = tc0.emitted.countP (isDuplicateVariableDiagFor "x")
        + ((fXXX.input.map (fun i => i.identifier.name)).count "x" - 1) :=
  (C9_duplicate_parameter_diags tc0 fXXX "x"
    (by intro t d hd; simp [tc0] at hd)
    (by intro d hd; simp [fXXX] at hd)
    (by decide)).1

/-- Counterexample to claim C9 as stated: a function with the parameter name
x repeated across three parameters gets two duplicate-variable diagnostics
for x, not exactly one per repeated name. -/
theorem C9_counterexample :
    (visit_function tc0 fXXX).emitted.countP (isDuplicateVariableDiagFor "x")
      = 2 ∧
    (fXXX.input.map (fun i => i.identifier.name)).count "x" = 3 ∧
    (2 : Nat) ≠ 1 := by
  refine ⟨?_, by decide, by decide⟩
  decide

end Leo
